import Mathlib

/-!
Shallow embedding of the build-queue controller of the chronodivide bot
(`src/bot/logic/building/queueController.ts` and
`src/bot/logic/building/antiGroundStaticDefence.ts`).

Modelling choices:
* TypeScript numbers are modelled as `ℚ` (every constant appearing in the
  claims, such as `1.1` and `0.25`, is exactly representable); division is
  field division on `ℚ`.
* `TechnoRules` keeps only the fields the controller reads: the name (used
  as identity in actions) and the cost. Object identity comparisons
  (`decision.unit != current`) become structural equality on this record.
* External collaborators (strategy registry lookup, owned-unit count,
  placement search) are functions packed into a `Game` record; the
  production api (`getAvailableObjects`, `getQueueData`) is a
  `ProductionApi` record.
* `priorityQueue.sort((a, b) => a.priority - b.priority)` is a stable
  ascending sort (ECMAScript mandates stability), embedded as
  `List.insertionSort` with the reflexive-total relation
  `a.priority ≤ b.priority`, which is also a stable ascending sort; stable
  sorts for the same key agree, and `.pop()` is `getLast?`.
-/

/-- The six production categories (`QueueType` in the game api). -/
inductive QueueType
  | Structures
  | Armory
  | Infantry
  | Vehicles
  | Aircrafts
  | Ships
deriving DecidableEq

/-- Production-queue status values the controller inspects (`QueueStatus`). -/
inductive QueueStatus
  | Idle
  | Ready
  | Active
  | OnHold
deriving DecidableEq

/-- The slice of a `TechnoRules` record that the controller reads. -/
structure TechnoRules where
  name : String
  cost : ℚ
deriving DecidableEq

/-- A candidate together with its computed priority (`TechnoRulesWithPriority`). -/
structure TechnoRulesWithPriority where
  unit : TechnoRules
  priority : ℚ
deriving DecidableEq

/-- The per-queue snapshot returned by `productionApi.getQueueData`. -/
structure QueueData where
  type : QueueType
  status : QueueStatus
  items : List TechnoRules
deriving DecidableEq

/-- The threat snapshot fields read by `AntiGroundStaticDefence.getPriority`. -/
structure GlobalThreat where
  totalOffensiveLandThreat : ℚ
  totalAvailableAntiGroundFirepower : ℚ
  totalDefensivePower : ℚ
deriving DecidableEq

/-- External context consulted by the controller:
`registryPriority r` is `BUILDING_NAME_TO_RULES.get(r.name).getPriority(...)`
at the current game state (`none` when the name is unregistered),
`ownedCount r` is `game.getVisibleUnits(player, "self", x => x == r).length`,
and `placement r` is `getBestLocationForStructure`'s outcome (registry
placement logic or the default placement search, both external). -/
structure Game where
  registryPriority : TechnoRules → Option ℚ
  ownedCount : TechnoRules → ℕ
  placement : TechnoRules → Option (ℚ × ℚ)

/-- Modelled from the spec: the constant `DEFAULT_BUILDING_PRIORITY` comes
from `building.js`, a file that is not among the provided sources;
spec §4.2/§8 fix the default priority at 50. -/
def DEFAULT_BUILDING_PRIORITY : ℚ := 50

/-- The fallback score used when no strategy is registered:
`DEFAULT_BUILDING_PRIORITY - ownedCount`. -/
def fallbackPriority (ownedCount : ℕ) : ℚ :=
  DEFAULT_BUILDING_PRIORITY - ownedCount

/-- `QueueController.getPriorityForBuildingOption`: registered strategy's
priority, else the fallback. -/
def getPriorityForBuildingOption (g : Game) (option : TechnoRules) : ℚ :=
  match g.registryPriority option with
  | some p => p
  | none => fallbackPriority (g.ownedCount option)

/-- The `priorityQueue` built inside `getBestOptionForBuilding`: candidates
with strictly positive priority, in input order (the source binds the
fresh `getPriorityForBuildingOption` call as `priority`; it is inlined). -/
def positiveCandidates (g : Game) (options : List TechnoRules) :
    List TechnoRulesWithPriority :=
  options.filterMap fun option =>
    if 0 < getPriorityForBuildingOption g option then
      some ⟨option, getPriorityForBuildingOption g option⟩
    else none

/-- The comparison relation of `sort((a, b) => a.priority - b.priority)`. -/
def prioLE (a b : TechnoRulesWithPriority) : Prop :=
  a.priority ≤ b.priority

instance : DecidableRel prioLE := fun a b =>
  inferInstanceAs (Decidable (a.priority ≤ b.priority))

instance : IsTotal TechnoRulesWithPriority prioLE :=
  ⟨fun a b => le_total a.priority b.priority⟩

instance : IsTrans TechnoRulesWithPriority prioLE :=
  ⟨fun _ _ _ hab hbc => le_trans hab hbc⟩

/-- `QueueController.getBestOptionForBuilding`: filter to positive
priorities, stable-sort ascending by priority, `pop()` the last element. -/
def getBestOptionForBuilding (g : Game) (options : List TechnoRules) :
    Option TechnoRulesWithPriority :=
  (List.insertionSort prioLE (positiveCandidates g options)).getLast?

/-- The production-command actions the controller can issue. -/
inductive BotAction
  | queueForProduction (queue : QueueType) (name : String)
  | placeBuilding (name : String) (rx ry : ℚ)
  | unqueueFromProduction (queue : QueueType) (name : String)
  | pauseProduction (queue : QueueType)
  | resumeProduction (queue : QueueType)
deriving DecidableEq

/-- `QueueController.updateBuildQueue`, returning the list of actions issued
on this call (the TypeScript issues them by side effect). The branch guards
mirror the source's `if/else if` chain; `items.length > 0` together with the
`items[0]` access becomes a match on the item list (the empty case of a
guarded branch is unreachable and yields no action). -/
def updateBuildQueue (g : Game) (credits : ℚ) (queueType : QueueType)
    (decision : Option TechnoRulesWithPriority)
    (totalWeightAcrossQueues totalCostAcrossQueues : ℚ)
    (queueData : QueueData) : List BotAction :=
  if queueData.status = QueueStatus.Idle then
    -- Start building the decided item.
    match decision with
    | some d => [BotAction.queueForProduction queueType d.unit.name]
    | none => []
  else if queueData.status = QueueStatus.Ready ∧ queueData.items ≠ [] then
    -- Consider placing it.
    match queueData.items with
    | objectReady :: _ =>
      if queueType = QueueType.Structures ∨ queueType = QueueType.Armory then
        match g.placement objectReady with
        | some (rx, ry) => [BotAction.placeBuilding objectReady.name rx ry]
        | none => []
      else []
    | [] => []
  else if queueData.status = QueueStatus.Active ∧ queueData.items ≠ [] ∧
      decision ≠ none then
    -- Consider cancelling if something else is significantly higher priority.
    match queueData.items, decision with
    | current :: _, some d =>
      if d.unit ≠ current then
        -- Changing our mind. The source binds `currentItemPriority` (a fresh
        -- `getPriorityForBuildingOption` call) and `newItemPriority`
        -- (`decision.priority`); they are inlined here.
        if d.priority > getPriorityForBuildingOption g current * 2 then
          [BotAction.unqueueFromProduction queueData.type current.name]
        else []
      else
        -- Not changing our mind, but maybe other queues are more important.
        if totalCostAcrossQueues > credits ∧
            d.priority < totalWeightAcrossQueues * 0.25 then
          [BotAction.pauseProduction queueData.type]
        else []
    | _, _ => []
  else if queueData.status = QueueStatus.OnHold then
    -- Consider resuming queue if priority is high relative to other queues.
    if credits ≥ totalCostAcrossQueues then
      [BotAction.resumeProduction queueData.type]
    else
      match decision with
      | some d =>
        if d.priority ≥ totalWeightAcrossQueues * 0.25 then
          [BotAction.resumeProduction queueData.type]
        else []
      | none => []
  else []

/-- The production api surface `onAiUpdate` consumes. -/
structure ProductionApi where
  availableObjects : QueueType → List TechnoRules
  queueData : QueueType → QueueData

/-- The fixed `queues` list of `onAiUpdate`, in source order. -/
def allQueues : List QueueType :=
  [QueueType.Structures, QueueType.Armory, QueueType.Infantry,
   QueueType.Vehicles, QueueType.Aircrafts, QueueType.Ships]

/-- The `decisions` list of `onAiUpdate`: per-queue best options, with the
queues whose decision is `null` filtered out. -/
def decisionsFor (g : Game) (productionApi : ProductionApi) :
    List (QueueType × TechnoRulesWithPriority) :=
  allQueues.filterMap fun queueType =>
    (getBestOptionForBuilding g (productionApi.availableObjects queueType)).map
      fun decision => (queueType, decision)

/-- `totalWeightAcrossQueues` of `onAiUpdate`. -/
def totalWeightFor (g : Game) (productionApi : ProductionApi) : ℚ :=
  ((decisionsFor g productionApi).map fun decision => decision.2.priority).sum

/-- `totalCostAcrossQueues` of `onAiUpdate`. -/
def totalCostFor (g : Game) (productionApi : ProductionApi) : ℚ :=
  ((decisionsFor g productionApi).map fun decision => decision.2.unit.cost).sum

/-- `QueueController.onAiUpdate` for one tick: compute the per-queue
decisions, the cross-queue totals (`totalWeightFor` and `totalCostFor` are
the source's local `totalWeightAcrossQueues` / `totalCostAcrossQueues`),
then run `updateBuildQueue` for each surviving decision; the result is the
concatenated action list in issue order. The function takes no state from
prior ticks. -/
def onAiUpdate (g : Game) (productionApi : ProductionApi) (credits : ℚ) :
    List BotAction :=
  (decisionsFor g productionApi).flatMap fun decision =>
    updateBuildQueue g credits decision.1 (some decision.2)
      (totalWeightFor g productionApi) (totalCostFor g productionApi)
      (productionApi.queueData decision.1)

/-- The queues for which `onAiUpdate` invokes the per-category step
(`updateBuildQueue`) this tick. -/
def steppedQueues (g : Game) (productionApi : ProductionApi) :
    List QueueType :=
  (decisionsFor g productionApi).map Prod.fst

/-- The strategy parameters of `AntiGroundStaticDefence`. -/
structure AntiGroundStaticDefence where
  basePriority : ℚ
  baseAmount : ℚ
  groundStrength : ℚ
deriving DecidableEq

/-- `AntiGroundStaticDefence.getPriority`; `cost` is `technoRules.cost` and
`numOwned` is the external `numBuildingsOwnedOfType` count. -/
def AntiGroundStaticDefence.getPriority (s : AntiGroundStaticDefence)
    (cost : ℚ) (numOwned : ℕ) (threatCache : Option GlobalThreat) : ℚ :=
  match threatCache with
  | some threat =>
    let denominator := threat.totalAvailableAntiGroundFirepower +
      threat.totalDefensivePower + s.groundStrength
    if threat.totalOffensiveLandThreat > denominator * 1.1 then
      s.basePriority * (threat.totalOffensiveLandThreat / max 1 denominator)
    else 0
  | none =>
    let strengthPerCost := s.groundStrength / cost * 1000
    s.basePriority * (1 - (numOwned : ℚ) / s.baseAmount) * strengthPerCost

/-- A game context with an empty strategy registry, no owned units and no
placement result: every option falls back to the default priority. -/
def emptyRegistryGame : Game :=
  { registryPriority := fun _ => none
    ownedCount := fun _ => 0
    placement := fun _ => none }

/-- C8: when a threat snapshot is present, the defensive-structure score is
`basePriority * enemyOffensiveStrength / max 1 denominator` when
`enemyOffensiveStrength > denominator * 1.1` (with `denominator =
ownFirepower + ownDefensivePower + structureStrength`) and `0` otherwise;
with firepower 100, defensive power 50 and structure strength 20, the score
is `basePriority * 200/170` at enemy strength 200 and `0` at 180. -/
theorem C8_threat_formula :
    (∀ (s : AntiGroundStaticDefence) (cost : ℚ) (numOwned : ℕ)
        (threat : GlobalThreat),
      AntiGroundStaticDefence.getPriority s cost numOwned (some threat) =
        if threat.totalOffensiveLandThreat >
            (threat.totalAvailableAntiGroundFirepower +
              threat.totalDefensivePower + s.groundStrength) * 1.1 then
          s.basePriority * (threat.totalOffensiveLandThreat /
            max 1 (threat.totalAvailableAntiGroundFirepower +
              threat.totalDefensivePower + s.groundStrength))
        else 0) ∧
    (∀ (b amt cost : ℚ) (numOwned : ℕ),
      AntiGroundStaticDefence.getPriority ⟨b, amt, 20⟩ cost numOwned
          (some ⟨200, 100, 50⟩) = b * (200 / 170)) ∧
    (∀ (b amt cost : ℚ) (numOwned : ℕ),
      AntiGroundStaticDefence.getPriority ⟨b, amt, 20⟩ cost numOwned
          (some ⟨180, 100, 50⟩) = 0) := by
  refine ⟨fun s cost numOwned threat => rfl,
    fun b amt cost numOwned => ?_, fun b amt cost numOwned => ?_⟩
  · show (if (200:ℚ) > (100 + 50 + 20) * 1.1 then
        b * (200 / max 1 ((100:ℚ) + 50 + 20)) else 0) = b * (200 / 170)
    rw [if_pos (by norm_num),
      max_eq_right (by norm_num : (1:ℚ) ≤ 100 + 50 + 20)]
    norm_num
  · show (if (180:ℚ) > (100 + 50 + 20) * 1.1 then
        b * (180 / max 1 ((100:ℚ) + 50 + 20)) else 0) = 0
    rw [if_neg (by norm_num)]

/-- C7 counterexample: the no-threat formula of the defensive-structure
strategy is negative for `basePriority = 1`, `baseAmount = 1`,
`groundStrength = 10`, `cost = 1000` and two owned instances, refuting
"getPriority always returns a score ≥ 0". -/
theorem C7_counterexample :
    AntiGroundStaticDefence.getPriority ⟨1, 1, 10⟩ 1000 2 none < 0 := by
  show (1:ℚ) * (1 - (2:ℕ) / 1) * (10 / 1000 * 1000) < 0
  norm_num

/-- C7 amended: the no-threat score is not always ≥ 0; with positive
`basePriority`, `groundStrength`, `cost` and `baseAmount` it is negative
exactly when the owned count exceeds `baseAmount` (non-positive scores are
then discarded by the selector, not by the strategy). -/
theorem C7_no_threat_sign (s : AntiGroundStaticDefence) (cost : ℚ)
    (numOwned : ℕ) (hb : 0 < s.basePriority) (hg : 0 < s.groundStrength)
    (hc : 0 < cost) (ha : 0 < s.baseAmount) :
    AntiGroundStaticDefence.getPriority s cost numOwned none < 0 ↔
      s.baseAmount < numOwned := by
  show s.basePriority * (1 - (numOwned : ℚ) / s.baseAmount) *
      (s.groundStrength / cost * 1000) < 0 ↔ s.baseAmount < (numOwned : ℚ)
  have hspc : 0 < s.groundStrength / cost * 1000 := by positivity
  constructor
  · intro h
    by_contra hle
    push_neg at hle
    have h1 : 0 ≤ 1 - (numOwned : ℚ) / s.baseAmount := by
      have := (div_le_one ha).mpr hle
      linarith
    have h2 : 0 ≤ s.basePriority * (1 - (numOwned : ℚ) / s.baseAmount) *
        (s.groundStrength / cost * 1000) :=
      mul_nonneg (mul_nonneg hb.le h1) hspc.le
    linarith
  · intro h
    have h1 : 1 - (numOwned : ℚ) / s.baseAmount < 0 := by
      have := (one_lt_div ha).mpr h
      linarith
    have h2 : s.basePriority * (1 - (numOwned : ℚ) / s.baseAmount) < 0 :=
      mul_neg_of_pos_of_neg hb h1
    exact mul_neg_of_neg_of_pos h2 hspc

/-- C7 amended witness at `basePriority = 1`, `baseAmount = 2`,
`groundStrength = 10`, `cost = 1000`, five owned instances. -/
theorem C7_no_threat_sign_witness :
    AntiGroundStaticDefence.getPriority ⟨1, 2, 10⟩ 1000 5 none < 0 :=
  (C7_no_threat_sign ⟨1, 2, 10⟩ 1000 5 (by norm_num) (by norm_num)
    (by norm_num) (by norm_num)).mpr (by norm_num)

/-- C9: when no strategy is registered for an option, its priority is the
fallback `DEFAULT_BUILDING_PRIORITY - ownedCount`, which strictly decreases
in the owned count, equals 47 at three owned, and is ≤ 0 once at least 50
are owned. -/
theorem C9_fallback_priority (g : Game) (option : TechnoRules) (n m : ℕ)
    (hmiss : g.registryPriority option = none) (hnm : n < m) :
    getPriorityForBuildingOption g option =
        fallbackPriority (g.ownedCount option) ∧
    fallbackPriority m < fallbackPriority n ∧
    fallbackPriority 3 = 47 ∧
    (50 ≤ n → fallbackPriority n ≤ 0) := by
  refine ⟨?_, ?_, ?_, ?_⟩
  · unfold getPriorityForBuildingOption
    rw [hmiss]
  · exact sub_lt_sub_left (by exact_mod_cast hnm) _
  · unfold fallbackPriority DEFAULT_BUILDING_PRIORITY
    norm_num
  · intro hn
    unfold fallbackPriority DEFAULT_BUILDING_PRIORITY
    have : (50:ℚ) ≤ (n : ℚ) := by exact_mod_cast hn
    linarith

/-- C9 witness at an unregistered option with owned counts 50 and 51. -/
theorem C9_fallback_priority_witness :
    getPriorityForBuildingOption emptyRegistryGame ⟨"X", 1⟩ =
        fallbackPriority (emptyRegistryGame.ownedCount ⟨"X", 1⟩) ∧
    fallbackPriority 51 < fallbackPriority 50 ∧
    fallbackPriority 3 = 47 ∧
    (50 ≤ 50 → fallbackPriority 50 ≤ 0) :=
  C9_fallback_priority emptyRegistryGame ⟨"X", 1⟩ 50 51 rfl (by decide)

/-- C10: one `updateBuildQueue` call issues at most one production-command
action, for every combination of status, winner, totals and credits. -/
theorem C10_at_most_one_action (g : Game) (credits : ℚ)
    (queueType : QueueType) (decision : Option TechnoRulesWithPriority)
    (totalWeightAcrossQueues totalCostAcrossQueues : ℚ) (qd : QueueData) :
    (updateBuildQueue g credits queueType decision totalWeightAcrossQueues
      totalCostAcrossQueues qd).length ≤ 1 := by
  unfold updateBuildQueue
  repeat' split
  all_goals simp

/-- A game context whose registry knows only the building named "A", at
priority 10. -/
def gameWithA : Game :=
  { registryPriority := fun r => if r.name = "A" then some 10 else none
    ownedCount := fun _ => 0
    placement := fun _ => none }

/-- The registered building "A" (cost 100). -/
def unitA : TechnoRules := ⟨"A", 100⟩

/-- An unregistered alternative "B" (cost 100). -/
def unitB : TechnoRules := ⟨"B", 100⟩

/-- An Active infantry queue currently producing `unitA`. -/
def qdActiveA : QueueData := ⟨QueueType.Infantry, QueueStatus.Active, [unitA]⟩

/-- Reduction of `updateBuildQueue` in the `Active` branch with a winner
present and a non-empty item list. -/
theorem updateBuildQueue_active (g : Game) (credits : ℚ)
    (queueType : QueueType) (d : TechnoRulesWithPriority)
    (totalWeightAcrossQueues totalCostAcrossQueues : ℚ) (qd : QueueData)
    (current : TechnoRules) (rest : List TechnoRules)
    (hA : qd.status = QueueStatus.Active)
    (hitems : qd.items = current :: rest) :
    updateBuildQueue g credits queueType (some d) totalWeightAcrossQueues
        totalCostAcrossQueues qd =
      if d.unit ≠ current then
        if d.priority > getPriorityForBuildingOption g current * 2 then
          [BotAction.unqueueFromProduction qd.type current.name]
        else []
      else
        if totalCostAcrossQueues > credits ∧
            d.priority < totalWeightAcrossQueues * 0.25 then
          [BotAction.pauseProduction qd.type]
        else [] := by
  unfold updateBuildQueue
  rw [if_neg (by simp [hA]), if_neg (by simp [hA]),
    if_pos ⟨hA, by simp [hitems], by simp⟩, hitems]

/-- C3: for an `Active` category whose front-of-line item differs from the
tick's winner's item, a dequeue of the current item is issued exactly when
the winner's priority strictly exceeds twice the current item's freshly
recomputed priority; otherwise no action is issued at all, whatever the
credits and totals. -/
theorem C3_hysteresis (g : Game) (credits : ℚ) (queueType : QueueType)
    (d : TechnoRulesWithPriority)
    (totalWeightAcrossQueues totalCostAcrossQueues : ℚ) (qd : QueueData)
    (current : TechnoRules) (rest : List TechnoRules)
    (hA : qd.status = QueueStatus.Active)
    (hitems : qd.items = current :: rest) (hne : d.unit ≠ current) :
    updateBuildQueue g credits queueType (some d) totalWeightAcrossQueues
        totalCostAcrossQueues qd =
      (if d.priority > getPriorityForBuildingOption g current * 2 then
        [BotAction.unqueueFromProduction qd.type current.name]
      else []) := by
  rw [updateBuildQueue_active g credits queueType d totalWeightAcrossQueues
    totalCostAcrossQueues qd current rest hA hitems, if_pos hne]

/-- C3 witness: winner priority 21 against current priority 10 (so
`21 > 10 * 2`) triggers the dequeue. -/
theorem C3_hysteresis_witness :
    updateBuildQueue gameWithA 0 QueueType.Infantry (some ⟨unitB, 21⟩) 0 0
        qdActiveA =
      [BotAction.unqueueFromProduction QueueType.Infantry "A"] := by
  rw [C3_hysteresis gameWithA 0 QueueType.Infantry ⟨unitB, 21⟩ 0 0 qdActiveA
    unitA [] rfl rfl (by decide), if_pos]
  · rfl
  · show getPriorityForBuildingOption gameWithA unitA * 2 < 21
    rw [show getPriorityForBuildingOption gameWithA unitA = 10 from rfl]
    norm_num

/-- C6: for an `Active` category whose front-of-line item equals the
winner's item, a pause is issued exactly when `totalCost > credits` and the
winner's priority is below a quarter of `totalWeight`. -/
theorem C6_pause_iff (g : Game) (credits : ℚ) (queueType : QueueType)
    (d : TechnoRulesWithPriority)
    (totalWeightAcrossQueues totalCostAcrossQueues : ℚ) (qd : QueueData)
    (current : TechnoRules) (rest : List TechnoRules)
    (hA : qd.status = QueueStatus.Active)
    (hitems : qd.items = current :: rest) (heq : d.unit = current) :
    updateBuildQueue g credits queueType (some d) totalWeightAcrossQueues
        totalCostAcrossQueues qd =
      (if totalCostAcrossQueues > credits ∧
          d.priority < totalWeightAcrossQueues * 0.25 then
        [BotAction.pauseProduction qd.type]
      else []) := by
  rw [updateBuildQueue_active g credits queueType d totalWeightAcrossQueues
    totalCostAcrossQueues qd current rest hA hitems, if_neg (by simp [heq])]

/-- C6 witness: totals 10/100 with credits 50 and winner priority 1
(`100 > 50` and `1 < 10 * 0.25`) trigger the pause. -/
theorem C6_pause_iff_witness :
    updateBuildQueue gameWithA 50 QueueType.Infantry (some ⟨unitA, 1⟩) 10 100
        qdActiveA =
      [BotAction.pauseProduction QueueType.Infantry] := by
  rw [C6_pause_iff gameWithA 50 QueueType.Infantry ⟨unitA, 1⟩ 10 100 qdActiveA
    unitA [] rfl rfl rfl, if_pos]
  · rfl
  · constructor
    · norm_num
    · show (1:ℚ) < 10 * 0.25
      norm_num

/-- Written from the spec's words for the selector (§4.3): return the
candidate with the maximum score, breaking score ties in favour of the
candidate listed last; `none` on an empty list. -/
def selectLastMax :
    List TechnoRulesWithPriority → Option TechnoRulesWithPriority
  | [] => none
  | x :: xs =>
    match selectLastMax xs with
    | none => some x
    | some m => if x.priority ≤ m.priority then some m else some x

theorem selectLastMax_cons_none {x : TechnoRulesWithPriority}
    {xs : List TechnoRulesWithPriority} (h : selectLastMax xs = none) :
    selectLastMax (x :: xs) = some x := by
  show (match selectLastMax xs with
    | none => some x
    | some m => if x.priority ≤ m.priority then some m else some x) = some x
  rw [h]

theorem selectLastMax_cons_some {x m : TechnoRulesWithPriority}
    {xs : List TechnoRulesWithPriority} (h : selectLastMax xs = some m) :
    selectLastMax (x :: xs) =
      if x.priority ≤ m.priority then some m else some x := by
  show (match selectLastMax xs with
    | none => some x
    | some m => if x.priority ≤ m.priority then some m else some x) =
      if x.priority ≤ m.priority then some m else some x
  rw [h]

theorem selectLastMax_eq_none {l : List TechnoRulesWithPriority} :
    selectLastMax l = none ↔ l = [] := by
  cases l with
  | nil => simp [selectLastMax]
  | cons x xs =>
    simp only [List.cons_ne_nil, iff_false]
    cases hx : selectLastMax xs with
    | none =>
      rw [selectLastMax_cons_none hx]
      simp
    | some m =>
      rw [selectLastMax_cons_some hx]
      split <;> simp

theorem selectLastMax_mem {l : List TechnoRulesWithPriority}
    {c : TechnoRulesWithPriority} (h : selectLastMax l = some c) : c ∈ l := by
  induction l with
  | nil => cases h
  | cons x xs ih =>
    cases hx : selectLastMax xs with
    | none =>
      rw [selectLastMax_cons_none hx] at h
      cases h
      simp
    | some m =>
      rw [selectLastMax_cons_some hx] at h
      by_cases hle : x.priority ≤ m.priority
      · rw [if_pos hle] at h
        cases h
        exact List.mem_cons_of_mem _ (ih hx)
      · rw [if_neg hle] at h
        cases h
        simp

theorem selectLastMax_le {l : List TechnoRulesWithPriority} :
    ∀ {c : TechnoRulesWithPriority}, selectLastMax l = some c →
      ∀ x ∈ l, x.priority ≤ c.priority := by
  induction l with
  | nil => intro c h; cases h
  | cons a xs ih =>
    intro c h x hx
    cases hs : selectLastMax xs with
    | none =>
      rw [selectLastMax_cons_none hs] at h
      cases h
      have hnil : xs = [] := selectLastMax_eq_none.mp hs
      subst hnil
      rcases List.mem_singleton.mp hx with rfl
      exact le_refl _
    | some m =>
      rw [selectLastMax_cons_some hs] at h
      by_cases hle : a.priority ≤ m.priority
      · rw [if_pos hle] at h
        cases h
        rcases List.mem_cons.mp hx with h1 | h2
        · subst h1
          exact hle
        · exact ih hs x h2
      · rw [if_neg hle] at h
        cases h
        rcases List.mem_cons.mp hx with h1 | h2
        · subst h1
          exact le_refl _
        · exact le_trans (ih hs x h2) (le_of_not_le hle)

theorem selectLastMax_last_tiebreak {l : List TechnoRulesWithPriority}
    {c : TechnoRulesWithPriority} (h : selectLastMax l = some c) :
    ∃ l₁ l₂, l = l₁ ++ c :: l₂ ∧ ∀ x ∈ l₂, x.priority < c.priority := by
  induction l with
  | nil => cases h
  | cons a xs ih =>
    cases hs : selectLastMax xs with
    | none =>
      rw [selectLastMax_cons_none hs] at h
      cases h
      refine ⟨[], xs, rfl, fun x hx => ?_⟩
      rw [selectLastMax_eq_none.mp hs] at hx
      cases hx
    | some m =>
      rw [selectLastMax_cons_some hs] at h
      by_cases hle : a.priority ≤ m.priority
      · rw [if_pos hle] at h
        cases h
        obtain ⟨l₁, l₂, heq, hlt⟩ := ih hs
        refine ⟨a :: l₁, l₂, ?_, hlt⟩
        rw [heq]
        rfl
      · rw [if_neg hle] at h
        cases h
        refine ⟨[], xs, rfl, fun x hx => ?_⟩
        exact lt_of_le_of_lt (selectLastMax_le hs x hx) (not_le.mp hle)

theorem getLast?_cons_of_ne_nil {α : Type} (a : α) {l : List α}
    (h : l ≠ []) : (a :: l).getLast? = l.getLast? := by
  cases l with
  | nil => exact absurd rfl h
  | cons b t => exact List.getLast?_cons_cons

/-- In a `prioLE`-sorted list the head is bounded by the last element. -/
theorem sorted_head_le_getLast {b m : TechnoRulesWithPriority}
    {t : List TechnoRulesWithPriority} (hs : List.Sorted prioLE (b :: t))
    (hm : (b :: t).getLast? = some m) : b.priority ≤ m.priority := by
  induction t generalizing b with
  | nil =>
    cases hm
    exact le_refl _
  | cons c t' ih =>
    rw [List.getLast?_cons_cons] at hm
    have hbc : prioLE b c := (List.sorted_cons.mp hs).1 c (by simp)
    exact le_trans hbc (ih (List.sorted_cons.mp hs).2 hm)

/-- The last element of an ordered insertion into a sorted list is the old
last element unless the inserted element exceeds it. -/
theorem getLast?_orderedInsert (x : TechnoRulesWithPriority)
    (l : List TechnoRulesWithPriority) (hs : List.Sorted prioLE l) :
    (List.orderedInsert prioLE x l).getLast? =
      match l.getLast? with
      | none => some x
      | some m =>
        if x.priority ≤ m.priority then some m else some x := by
  induction l with
  | nil => rfl
  | cons b t ih =>
    rw [List.orderedInsert]
    by_cases hxb : prioLE x b
    · rw [if_pos hxb, List.getLast?_cons_cons]
      cases ht : (b :: t).getLast? with
      | none => simp at ht
      | some m =>
        have hxm : x.priority ≤ m.priority :=
          le_trans hxb (sorted_head_le_getLast hs ht)
        exact (if_pos hxm).symm
    · rw [if_neg hxb]
      cases t with
      | nil => exact (if_neg hxb).symm
      | cons c t' =>
        have hnn : List.orderedInsert prioLE x (c :: t') ≠ [] := by
          rw [List.orderedInsert]
          split <;> simp
        rw [getLast?_cons_of_ne_nil b hnn,
          ih (List.sorted_cons.mp hs).2, List.getLast?_cons_cons]

/-- The stable ascending insertion sort followed by `pop()` implements the
spec's last-max selection rule. -/
theorem getLast?_insertionSort (l : List TechnoRulesWithPriority) :
    (List.insertionSort prioLE l).getLast? = selectLastMax l := by
  induction l with
  | nil => rfl
  | cons x xs ih =>
    rw [List.insertionSort,
      getLast?_orderedInsert x _ (List.sorted_insertionSort prioLE xs), ih]
    cases hx : selectLastMax xs with
    | none => rw [selectLastMax_cons_none hx]
    | some m => rw [selectLastMax_cons_some hx]

theorem positiveCandidates_eq_nil {g : Game} {options : List TechnoRules} :
    positiveCandidates g options = [] ↔
      ∀ option ∈ options, getPriorityForBuildingOption g option ≤ 0 := by
  unfold positiveCandidates
  rw [List.filterMap_eq_nil_iff]
  constructor
  · intro h option hopt
    have ho := h option hopt
    by_contra hpos
    push_neg at hpos
    rw [if_pos hpos] at ho
    cases ho
  · intro h option hopt
    rw [if_neg (not_lt.mpr (h option hopt))]

theorem mem_positiveCandidates {g : Game} {options : List TechnoRules}
    {c : TechnoRulesWithPriority} (hc : c ∈ positiveCandidates g options) :
    0 < c.priority := by
  unfold positiveCandidates at hc
  obtain ⟨option, hopt, hco⟩ := List.mem_filterMap.mp hc
  by_cases hp : 0 < getPriorityForBuildingOption g option
  · rw [if_pos hp] at hco
    cases hco
    exact hp
  · rw [if_neg hp] at hco
    cases hco

/-- C4: the per-queue selector equals the spec's rule (drop non-positive
scores, take the maximum, ties to the last-listed candidate): it returns
`none` exactly when no option scores positively, any returned candidate has
a positive score that bounds every positive candidate, and every positive
candidate listed after the returned one scores strictly lower. -/
theorem C4_selector (g : Game) (options : List TechnoRules) :
    getBestOptionForBuilding g options =
        selectLastMax (positiveCandidates g options) ∧
    (getBestOptionForBuilding g options = none ↔
      ∀ option ∈ options, getPriorityForBuildingOption g option ≤ 0) ∧
    (∀ c, getBestOptionForBuilding g options = some c → 0 < c.priority) ∧
    (∀ c, getBestOptionForBuilding g options = some c →
      ∀ x ∈ positiveCandidates g options, x.priority ≤ c.priority) ∧
    (∀ c, getBestOptionForBuilding g options = some c →
      ∃ l₁ l₂, positiveCandidates g options = l₁ ++ c :: l₂ ∧
        ∀ x ∈ l₂, x.priority < c.priority) := by
  have hmain : getBestOptionForBuilding g options =
      selectLastMax (positiveCandidates g options) :=
    getLast?_insertionSort _
  refine ⟨hmain, ?_, ?_, ?_, ?_⟩
  · rw [hmain, selectLastMax_eq_none, positiveCandidates_eq_nil]
  · intro c hc
    rw [hmain] at hc
    exact mem_positiveCandidates (selectLastMax_mem hc)
  · intro c hc
    rw [hmain] at hc
    exact selectLastMax_le hc
  · intro c hc
    rw [hmain] at hc
    exact selectLastMax_last_tiebreak hc

/-- A registry scoring "A" and "C" equally at 5 and "B" at 0, to exhibit
the tie-break. -/
def gameABC : Game :=
  { registryPriority := fun r =>
      if r.name = "A" then some 5
      else if r.name = "B" then some 0
      else if r.name = "C" then some 5
      else none
    ownedCount := fun _ => 0
    placement := fun _ => none }

/-- The candidate list "A", "B", "C" in enumeration order. -/
def optionsABC : List TechnoRules := [⟨"A", 1⟩, ⟨"B", 1⟩, ⟨"C", 1⟩]

/-- C4 witness: "B" (score 0) is discarded and the score-5 tie between "A"
and "C" goes to the last-listed "C", whose score is positive. -/
theorem C4_selector_witness :
    getBestOptionForBuilding gameABC optionsABC = some ⟨⟨"C", 1⟩, 5⟩ ∧
    (0:ℚ) < (5:ℚ) :=
  ⟨by decide, (C4_selector gameABC optionsABC).2.2.1 ⟨⟨"C", 1⟩, 5⟩ (by decide)⟩

theorem sum_over_winners (l : List QueueType)
    (f : QueueType → Option TechnoRulesWithPriority)
    (w : TechnoRulesWithPriority → ℚ) :
    (((l.filterMap fun q => (f q).map fun d => (q, d)).map
        fun d => w d.2).sum) =
      (l.map fun q =>
        match f q with
        | some d => w d
        | none => 0).sum := by
  induction l with
  | nil => rfl
  | cons q t ih =>
    cases hq : f q <;>
      simp [List.filterMap_cons, hq, ih]

/-- C5: the totals handed to every per-category step are the sums of
exactly this tick's winners' priorities and costs (a queue with no winner
contributes nothing), and `onAiUpdate` passes those fully-computed totals
unchanged to every `updateBuildQueue` call; the totals are functions of
this tick's inputs only. -/
theorem C5_totals (g : Game) (productionApi : ProductionApi) (credits : ℚ) :
    totalWeightFor g productionApi =
      (allQueues.map fun queueType =>
        match getBestOptionForBuilding g
            (productionApi.availableObjects queueType) with
        | some d => d.priority
        | none => 0).sum ∧
    totalCostFor g productionApi =
      (allQueues.map fun queueType =>
        match getBestOptionForBuilding g
            (productionApi.availableObjects queueType) with
        | some d => d.unit.cost
        | none => 0).sum ∧
    onAiUpdate g productionApi credits =
      (decisionsFor g productionApi).flatMap fun decision =>
        updateBuildQueue g credits decision.1 (some decision.2)
          (totalWeightFor g productionApi) (totalCostFor g productionApi)
          (productionApi.queueData decision.1) := by
  refine ⟨?_, ?_, rfl⟩
  · exact sum_over_winners allQueues
      (fun queueType => getBestOptionForBuilding g
        (productionApi.availableObjects queueType))
      (fun d => d.priority)
  · exact sum_over_winners allQueues
      (fun queueType => getBestOptionForBuilding g
        (productionApi.availableObjects queueType))
      (fun d => d.unit.cost)

theorem map_fst_decisions (l : List QueueType)
    (f : QueueType → Option TechnoRulesWithPriority) :
    ((l.filterMap fun q => (f q).map fun d => (q, d)).map Prod.fst) =
      l.filter fun q => (f q).isSome := by
  induction l with
  | nil => rfl
  | cons q t ih =>
    cases hq : f q <;>
      simp [List.filterMap_cons, List.filter_cons, hq, ih]

/-- C1 amended: the arbiter invokes the per-category step exactly for the
categories whose selector returned a winner; categories with no winner are
filtered out before the step loop and receive no step call. -/
theorem C1_steps_only_winning_queues (g : Game)
    (productionApi : ProductionApi) :
    steppedQueues g productionApi =
      allQueues.filter fun queueType =>
        (getBestOptionForBuilding g
          (productionApi.availableObjects queueType)).isSome :=
  map_fst_decisions allQueues
    (fun queueType => getBestOptionForBuilding g
      (productionApi.availableObjects queueType))

/-- A production api with no buildable options and every queue on hold. -/
def onHoldEmptyProduction : ProductionApi :=
  { availableObjects := fun _ => []
    queueData := fun queueType => ⟨queueType, QueueStatus.OnHold, []⟩ }

/-- C1 counterexample: with no options anywhere, Structures is one of the
six categories and has no winner, and its step is never invoked (refuting
"the step is invoked for every category, including those with no
winner"). -/
theorem C1_counterexample :
    QueueType.Structures ∈ allQueues ∧
    getBestOptionForBuilding emptyRegistryGame
      (onHoldEmptyProduction.availableObjects QueueType.Structures) = none ∧
    QueueType.Structures ∉ steppedQueues emptyRegistryGame
      onHoldEmptyProduction :=
  ⟨by decide, rfl, by decide⟩

/-- C2 counterexample: every queue is `OnHold` and credits (1000) cover the
total cost (0), yet no resume is issued for Structures — because it has no
winner, its step never runs (refuting "regardless of whether a winner was
selected"). -/
theorem C2_counterexample :
    (onHoldEmptyProduction.queueData QueueType.Structures).status =
        QueueStatus.OnHold ∧
    totalCostFor emptyRegistryGame onHoldEmptyProduction ≤ 1000 ∧
    BotAction.resumeProduction QueueType.Structures ∉
      onAiUpdate emptyRegistryGame onHoldEmptyProduction 1000 := by
  refine ⟨rfl, ?_, by decide⟩
  show (0:ℚ) ≤ 1000
  norm_num

/-- C2 amended: for every category that did get a winner this tick, if its
queue is `OnHold` and credits cover `totalCost`, a resume is issued for it
this tick, whatever the winner's score. -/
theorem C2_onhold_resumes_when_affordable (g : Game)
    (productionApi : ProductionApi) (credits : ℚ) (queueType : QueueType)
    (d : TechnoRulesWithPriority)
    (hwin : (queueType, d) ∈ decisionsFor g productionApi)
    (hhold : (productionApi.queueData queueType).status = QueueStatus.OnHold)
    (hcred : credits ≥ totalCostFor g productionApi) :
    BotAction.resumeProduction (productionApi.queueData queueType).type ∈
      onAiUpdate g productionApi credits := by
  unfold onAiUpdate
  apply List.mem_flatMap.mpr
  refine ⟨(queueType, d), hwin, ?_⟩
  unfold updateBuildQueue
  rw [if_neg (by simp [hhold]), if_neg (by simp [hhold]),
    if_neg (by simp [hhold]), if_pos hhold, if_pos hcred]
  simp

/-- A production api offering only `unitA` for Structures, all queues on
hold. -/
def oneOptionOnHoldProduction : ProductionApi :=
  { availableObjects := fun queueType =>
      if queueType = QueueType.Structures then [unitA] else []
    queueData := fun queueType => ⟨queueType, QueueStatus.OnHold, []⟩ }

/-- C2 witness: Structures wins with `unitA` (priority 10, cost 100),
credits 1000 cover the total cost 100, so its `OnHold` queue resumes. -/
theorem C2_onhold_resumes_witness :
    BotAction.resumeProduction QueueType.Structures ∈
      onAiUpdate gameWithA oneOptionOnHoldProduction 1000 :=
  C2_onhold_resumes_when_affordable gameWithA oneOptionOnHoldProduction 1000
    QueueType.Structures ⟨unitA, 10⟩ (by decide) rfl (by
      have hd : decisionsFor gameWithA oneOptionOnHoldProduction =
          [(QueueType.Structures, ⟨unitA, 10⟩)] := by decide
      show (1000:ℚ) ≥ totalCostFor gameWithA oneOptionOnHoldProduction
      unfold totalCostFor
      rw [hd]
      show (1000:ℚ) ≥ [unitA.cost].sum
      simp [unitA]
      norm_num)
